import Mathlib

/-!
Shallow embedding of `update_portfolio.py` (portfolio content updater).

Text is modelled as `List Char`; Python string primitives (`find`, `in`,
slicing, `replace` of single characters, `str.title`, `Path.stem`,
`Path.suffix`, `os.path.relpath`) are embedded as executable functions on
`List Char` / component lists.  The filesystem under the art folder is a
list of entries (path components relative to the art root plus a
file/directory flag); `sorted(...)` over `Path` objects is embedded as an
insertion sort keyed by the full path string, matching Python's
lexicographic comparison of path strings.  File contents are
`Option (List Char)` (`none` = the file does not exist), and the updater
returns the new file content together with its boolean success flag.
-/

namespace Portfolio

/-- Python `haystack.find(needle)` restricted to its successful results:
first index at which `needle` occurs in `haystack`, or `none`.
(`find` returns `0` on an empty needle, as Python does.) -/
def strFind : List Char → List Char → Option Nat
  | l, m =>
    if m.isPrefixOf l then some 0
    else
      match l with
      | [] => none
      | _ :: t => (strFind t m).map (· + 1)

/-- Python `needle in haystack`. -/
def strContains (l m : List Char) : Bool :=
  (strFind l m).isSome

/-- Marker `m` occurs in `l` starting at index `k`. -/
def occursAt (l m : List Char) (k : Nat) : Prop :=
  m <+: l.drop k

instance (l m : List Char) (k : Nat) : Decidable (occursAt l m k) := by
  unfold occursAt; infer_instance

/-- Python `s.replace(a, b)` for single-character `a`, `b`. -/
def pyReplaceChar (a b : Char) (l : List Char) : List Char :=
  l.map fun c => if c = a then b else c

/-- Python `s.title()` (ASCII model): a cased character that follows a
cased character is lowercased, any other cased character is uppercased;
uncased characters pass through. -/
def pyTitleGo : Bool → List Char → List Char
  | _, [] => []
  | prevCased, c :: t =>
    (if c.isAlpha then (if prevCased then c.toLower else c.toUpper) else c)
      :: pyTitleGo c.isAlpha t

def pyTitle (l : List Char) : List Char :=
  pyTitleGo false l

/-- Python `name.rfind(ch)`: index of the last occurrence, or `none`. -/
def rfindCharAux (ch : Char) : List Char → Nat → Option Nat
  | [], _ => none
  | c :: t, i =>
    match rfindCharAux ch t (i + 1) with
    | some j => some j
    | none => if c = ch then some i else none

def rfindChar (ch : Char) (l : List Char) : Option Nat :=
  rfindCharAux ch l 0

/-- Embeds `pathlib.PurePath.stem`: the final component without its extension.
The extension starts at the last dot, provided that dot is neither the
first nor the last character of the name. -/
def pyStem (name : List Char) : List Char :=
  match rfindChar '.' name with
  | some i => if 0 < i ∧ i < name.length - 1 then name.take i else name
  | none => name

/-- Embeds `pathlib.PurePath.suffix`: the extension of the final component,
including the dot (empty when there is none). -/
def pySuffix (name : List Char) : List Char :=
  match rfindChar '.' name with
  | some i => if 0 < i ∧ i < name.length - 1 then name.drop i else []

  | none => []

/-- The fixed indentation written after the generated content
(`'\n' + new_content + '\n        '` in the source). -/
def indent8 : List Char := "        ".toList

/-- Embeds `update_file_content(file_path, new_content, start_marker, end_marker)`.
The file is `none` when it does not exist; the result pairs the file's
content after the call with the returned success flag. -/
def update_file_content (file : Option (List Char)) (new_content start_marker end_marker : List Char) :
    Option (List Char) × Bool :=
  match file with
  | none => (none, false)
  | some content =>
    if !(strContains content start_marker) || !(strContains content end_marker) then
      (some content, false)
    else
      let start_idx := (strFind content start_marker).getD 0 + start_marker.length
      let end_idx := (strFind content end_marker).getD 0
      (some (content.take start_idx ++ '\n' :: new_content ++ '\n' :: indent8 ++ content.drop end_idx),
       true)

example :
    update_file_content (some ("aSbEc".toList)) ("X".toList) ("S".toList) ("E".toList)
      = (some ("aS\nX\n        Ec".toList), true) := by decide

example :
    update_file_content (some ("aSbc".toList)) ("X".toList) ("S".toList) ("E".toList)
      = (some ("aSbc".toList), false) := by decide

/-! ### Filesystem model and configuration constants -/

/-- One filesystem object below the art root: its path components relative
to the art root, and whether it is a regular file (`false` = directory).
`rglob` of the art root enumerates all of them. -/
structure FSEntry where
  comps : List String
  isFile : Bool
deriving DecidableEq

def ART_FOLDER : String := "art"

def GALLERY_START : List Char := "<!-- GALLERY_IMAGES_START -->".toList

def GALLERY_END : List Char := "<!-- GALLERY_IMAGES_END -->".toList

def COLLECTIONS_START : List Char := "<!-- COLLECTIONS_START -->".toList

def COLLECTIONS_END : List Char := "<!-- COLLECTIONS_END -->".toList

def SUPPORTED_EXTENSIONS : List (List Char) :=
  [".png".toList, ".jpg".toList, ".jpeg".toList, ".gif".toList, ".webp".toList, ".svg".toList]

/-- Value of `os.sep` on the POSIX platform the script targets. -/
def osSep : Char := '/'

/-- The full path of an entry as a string (`art/<comps joined by '/'>`);
this is the key `sorted()` compares when sorting `Path` objects. -/
def fullPathStr (en : FSEntry) : String :=
  String.intercalate ("/") (ART_FOLDER :: en.comps)

/-- Lexicographic `≤` on character lists by code point, the order Python
uses to compare (path) strings. -/
def lexLe : List Char → List Char → Bool
  | [], _ => true
  | _ :: _, [] => false
  | a :: s, b :: t => if a < b then true else if b < a then false else lexLe s t

theorem lexLe_total : ∀ x y : List Char, lexLe x y = true ∨ lexLe y x = true
  | [], _ => Or.inl rfl
  | _ :: _, [] => Or.inr rfl
  | a :: s, b :: t => by
    by_cases hab : a < b
    · left; simp [lexLe, hab]
    · by_cases hba : b < a
      · right; simp [lexLe, hba]
      · rcases lexLe_total s t with h | h
        · left; simp [lexLe, hab, hba, h]
        · right; simp [lexLe, hba, hab, h]

theorem lexLe_trans : ∀ {x y z : List Char},
    lexLe x y = true → lexLe y z = true → lexLe x z = true
  | [], _, _, _, _ => rfl
  | _ :: _, [], _, h, _ => by simp [lexLe] at h
  | _ :: _, _ :: _, [], _, h2 => by simp [lexLe] at h2
  | a :: s, b :: t, c :: u, h1, h2 => by
    by_cases hab : a < b
    · by_cases hbc : b < c
      · simp [lexLe, lt_trans hab hbc]
      · by_cases hcb : c < b
        · simp [lexLe, hbc, hcb] at h2
        · have hbc' : b = c := le_antisymm (not_lt.mp hcb) (not_lt.mp hbc)
          simp [lexLe, hbc' ▸ hab]
    · by_cases hba : b < a
      · simp [lexLe, hab, hba] at h1
      · have hab' : a = b := le_antisymm (not_lt.mp hba) (not_lt.mp hab)
        subst hab'
        by_cases hbc : a < c
        · simp [lexLe, hbc]
        · by_cases hcb : c < a
          · simp [lexLe, hbc, hcb] at h2
          · simp only [lexLe, if_neg hab, if_neg hba] at h1
            simp only [lexLe, if_neg hbc, if_neg hcb] at h2 ⊢
            exact lexLe_trans h1 h2

def entryLe (a b : FSEntry) : Prop :=
  lexLe (fullPathStr a).toList (fullPathStr b).toList = true

instance : DecidableRel entryLe := fun _ _ => by
  unfold entryLe; infer_instance

instance : IsTotal FSEntry entryLe :=
  ⟨fun a b => lexLe_total (fullPathStr a).toList (fullPathStr b).toList⟩

instance : IsTrans FSEntry entryLe :=
  ⟨fun _ _ _ h h2 => lexLe_trans h h2⟩

/-- Python `sorted(...)` over `Path` objects: lexicographic by the full
path string. -/
def sortEntries (entries : List FSEntry) : List FSEntry :=
  List.insertionSort entryLe entries

/-- Embeds `Path.name`: the final path component. -/
def entryName (en : FSEntry) : String :=
  en.comps.getLastD ("")

/-- Length of the common component-wise prefix of two paths, as used by
`os.path.relpath`. -/
def commonLen : List String → List String → Nat
  | a :: as, b :: bs => if a = b then commonLen as bs + 1 else 0
  | _, _ => 0

/-- Embeds `os.path.relpath(path, start)` on component lists: strip the common
prefix, then one `..` per remaining `start` component followed by the
remaining `path` components (`.` when nothing remains). -/
def relpathComps (path start : List String) : List String :=
  let k := commonLen path start
  let rel := List.replicate (start.length - k) (".." ) ++ path.drop k
  if rel = [] then ["."] else rel

def joinedPath (comps : List String) : List Char :=
  (String.intercalate ("/") comps).toList

/-- The extension filter of both the scanner and the grouper:
`file_path.is_file() and file_path.suffix.lower() in SUPPORTED_EXTENSIONS`. -/
def qualifies (en : FSEntry) : Bool :=
  en.isFile && SUPPORTED_EXTENSIONS.contains ((pySuffix (entryName en).toList).map Char.toLower)

/-- The locator written into the markup: the file's path made relative to
the target documents' directory `pages/` (both target documents live
there), with `os.sep` normalized to `/`.  This embeds
`os.path.relpath(file_path, Path(...).parent).replace(os.sep, '/')`,
which appears verbatim in both the scanner and the grouper. -/
def webLocator (en : FSEntry) : List Char :=
  pyReplaceChar osSep '/' (joinedPath (relpathComps (ART_FOLDER :: en.comps) (["pages"])))

/-- The alt text `file_path.stem.replace('_', ' ').replace('-', ' ').title()`,
which appears verbatim in both the scanner and the grouper. -/
def altText (en : FSEntry) : List Char :=
  pyTitle (pyReplaceChar '-' ' ' (pyReplaceChar '_' ' ' (pyStem (entryName en).toList)))

/-- The sorted, extension-filtered entry list underlying
`find_all_images` (`[]` when the art folder does not exist). -/
def scanKept (art : Option (List FSEntry)) : List FSEntry :=
  match art with
  | none => []
  | some entries => (sortEntries entries).filter qualifies

/-- Embeds `find_all_images(art_folder)`: the diagnostic lines printed, and the
list of `(relative_path, alt_text)` pairs. -/
def find_all_images (art : Option (List FSEntry)) : List String × List (List Char × List Char) :=
  match art with
  | none => (["Error: Art folder does not exist!"], [])
  | some entries =>
    ([], ((sortEntries entries).filter qualifies).map fun en => (webLocator en, altText en))

/-- Embeds `art_folder.iterdir()`: the immediate children of the art root. -/
def childEntries (entries : List FSEntry) : List FSEntry :=
  entries.filter fun en => en.comps.length == 1

/-- Embeds `subfolder.rglob` of one subfolder: every entry strictly below the immediate
child named `sub`. -/
def subTreeEntries (entries : List FSEntry) (sub : String) : List FSEntry :=
  entries.filter fun en => (en.comps.headD ("") == sub) && decide (2 ≤ en.comps.length)

/-- The sorted, extension-filtered entries of one collection subfolder. -/
def collectionKept (entries : List FSEntry) (sub : String) : List FSEntry :=
  (sortEntries (subTreeEntries entries sub)).filter qualifies

/-- Embeds `find_collections(art_folder)`: the diagnostic lines printed, and the
association list embedding the insertion-ordered dict
`{collection_name: [(relative_path, alt_text), ...]}`.  A `defaultdict`
key is created only by the first `append`, so a subfolder with no
qualifying image contributes no key. -/
def find_collections (art : Option (List FSEntry)) :
    List String × List (String × List (List Char × List Char)) :=
  match art with
  | none => (["Error: Art folder does not exist!"], [])
  | some entries =>
    ([], (sortEntries (childEntries entries)).filterMap fun sub =>
      if sub.isFile then none
      else
        let collection_name := entryName sub
        let imgs := (collectionKept entries collection_name).map fun en => (webLocator en, altText en)
        if imgs.isEmpty then none else some (collection_name, imgs))

/-! ### Markup generators -/

/-- Embeds the newline join used by both generators. -/
def joinNl : List (List Char) → List Char
  | [] => []
  | [x] => x
  | x :: y :: t => x ++ '\n' :: joinNl (y :: t)

/-- The flat gallery item template of `generate_gallery_html`. -/
def galleryItem (img_path alt_text : List Char) : List Char :=
  "        <div class=\"gallery-grid-item\">\n            <img src=\"".toList ++ img_path
    ++ "\" alt=\"".toList ++ alt_text ++ "\">\n        </div>".toList

def generate_gallery_html (images : List (List Char × List Char)) : List Char :=
  joinNl (images.map fun pr => galleryItem pr.1 pr.2)

/-- The per-image card template inside a collection section. -/
def collectionCard (img_path alt_text : List Char) : List Char :=
  "                        <div class=\"collection-card\">\n                            <div class=\"card-image\">\n                                <img src=\"".toList
    ++ img_path ++ "\" alt=\"".toList ++ alt_text
    ++ "\">\n                            </div>\n                        </div>".toList

/-- Python `collection_name.replace('_', ' ').replace('-', ' ').title()`. -/
def displayName (collection_name : List Char) : List Char :=
  pyTitle (pyReplaceChar '-' ' ' (pyReplaceChar '_' ' ' collection_name))

/-- The `section_html` template built for one collection inside
`generate_collections_html` (the button labels carry the literal
characters U+201A U+00C4 U+03C0 / U+222B present in the source file). -/
def collectionSection (collection_name : List Char) (images : List (List Char × List Char)) : List Char :=
  let display_name := displayName collection_name
  let cards := joinNl (images.map fun pr => collectionCard pr.1 pr.2)
  "        <!-- Collection: ".toList ++ collection_name
  ++ " -->\n        <section class=\"collection-section\" data-collection=\"".toList ++ collection_name
  ++ "\">\n            <div class=\"collection-header\">\n                <h2>".toList ++ display_name
  ++ "</h2>\n            </div>\n            <div class=\"collection-carousel-container\">\n                <button class=\"carousel-btn prev\" data-carousel=\"".toList ++ collection_name
  ++ "\">‚Äπ</button>\n                <div class=\"collection-carousel\" id=\"carousel-".toList ++ collection_name
  ++ "\">\n                    <div class=\"carousel-track\">\n".toList ++ cards
  ++ "\n                    </div>\n                </div>\n                <button class=\"carousel-btn next\" data-carousel=\"".toList ++ collection_name
  ++ "\">‚Ä∫</button>\n            </div>\n        </section>".toList

def generate_collections_html (collections : List (String × List (List Char × List Char))) : List Char :=
  joinNl ((collections.filter fun pr => !pr.2.isEmpty).map fun pr =>
    collectionSection pr.1.toList pr.2)

/-! ### Orchestrator -/

/-- The mutable state `main` touches: the art tree and the two target
documents (`none` = missing). -/
structure World where
  art : Option (List FSEntry)
  gallery : Option (List Char)
  collectionsFile : Option (List Char)
deriving DecidableEq

/-- Per-pipeline outcome reported by `main`: `none` when the update step
was never invoked, otherwise the splicer's success flag. -/
structure Report where
  galleryUpdate : Option Bool
  collectionsUpdate : Option Bool
deriving DecidableEq

/-- Embeds `main()`: run the gallery pipeline, then the collections pipeline;
each update step runs only when its scan found something. -/
def main (w : World) : World × Report :=
  let all_images := (find_all_images w.art).2
  let g :=
    if all_images.isEmpty then (w.gallery, (none : Option Bool))
    else
      let gallery_html := generate_gallery_html all_images
      let r := update_file_content w.gallery gallery_html GALLERY_START GALLERY_END
      (r.1, some r.2)
  let collections := (find_collections w.art).2
  let c :=
    if collections.isEmpty then (w.collectionsFile, (none : Option Bool))
    else
      let collections_html := generate_collections_html collections
      let r := update_file_content w.collectionsFile collections_html COLLECTIONS_START COLLECTIONS_END
      (r.1, some r.2)
  (⟨w.art, g.1, c.1⟩, ⟨g.2, c.2⟩)

example :
    (find_all_images (some [⟨["banner.png"], true⟩, ⟨["landscapes"], false⟩,
      ⟨["landscapes", "hill_1.jpg"], true⟩])).2
    = [("../art/banner.png".toList, "Banner".toList),
       ("../art/landscapes/hill_1.jpg".toList, "Hill 1".toList)] := by decide

example :
    (find_collections (some [⟨["banner.png"], true⟩, ⟨["landscapes"], false⟩,
      ⟨["landscapes", "hill_1.jpg"], true⟩])).2
    = [("landscapes", [("../art/landscapes/hill_1.jpg".toList, "Hill 1".toList)])] := by decide

/-! ### Properties of `strFind` / `occursAt` -/

theorem strFind_spec : ∀ {l m : List Char} {k : Nat}, strFind l m = some k →
    occursAt l m k ∧ ∀ q, q < k → ¬ occursAt l m q := by
  intro l
  induction l with
  | nil =>
    intro m k h
    rw [strFind] at h
    split at h
    · next hpre =>
      cases h
      exact ⟨List.isPrefixOf_iff_prefix.mp hpre, fun q hq => absurd hq (Nat.not_lt_zero q)⟩
    · simp at h
  | cons c t ih =>
    intro m k h
    rw [strFind] at h
    split at h
    · next hpre =>
      cases h
      exact ⟨List.isPrefixOf_iff_prefix.mp hpre, fun q hq => absurd hq (Nat.not_lt_zero q)⟩
    · next hpre =>
      simp only [Option.map_eq_some'] at h
      obtain ⟨k', hk', rfl⟩ := h
      obtain ⟨hocc, hmin⟩ := ih hk'
      refine ⟨by simpa [occursAt] using hocc, ?_⟩
      intro q hq
      cases q with
      | zero =>
        intro habs
        exact hpre (List.isPrefixOf_iff_prefix.mpr (by simpa [occursAt] using habs))
      | succ q' =>
        intro habs
        exact hmin q' (Nat.lt_of_succ_lt_succ hq) (by simpa [occursAt] using habs)

theorem strFind_none : ∀ {l m : List Char}, strFind l m = none →
    ∀ q, ¬ occursAt l m q := by
  intro l
  induction l with
  | nil =>
    intro m h q habs
    rw [strFind] at h
    split at h
    · simp at h
    · next hpre =>
      have hm : m = [] := List.prefix_nil.mp (by simpa [occursAt] using habs)
      exact hpre (List.isPrefixOf_iff_prefix.mpr (by simp [hm]))
  | cons c t ih =>
    intro m h q habs
    rw [strFind] at h
    split at h
    · simp at h
    · next hpre =>
      simp only [Option.map_eq_none'] at h
      cases q with
      | zero => exact hpre (List.isPrefixOf_iff_prefix.mpr (by simpa [occursAt] using habs))
      | succ q' => exact ih h q' (by simpa [occursAt] using habs)

theorem strFind_eq_some : ∀ {l m : List Char} {k : Nat},
    occursAt l m k → (∀ q, q < k → ¬ occursAt l m q) → strFind l m = some k := by
  intro l
  induction l with
  | nil =>
    intro m k hocc hmin
    have hm : m = [] := List.prefix_nil.mp (by simpa [occursAt] using hocc)
    have hk : k = 0 := by
      by_contra h
      exact hmin 0 (Nat.pos_of_ne_zero h) (by simp [occursAt, hm])
    subst hm; subst hk; rfl
  | cons c t ih =>
    intro m k hocc hmin
    by_cases hpre : m.isPrefixOf (c :: t)
    · have hk : k = 0 := by
        by_contra h
        exact hmin 0 (Nat.pos_of_ne_zero h)
          (by simpa [occursAt] using List.isPrefixOf_iff_prefix.mp hpre)
      subst hk
      rw [strFind, if_pos hpre]
    · cases k with
      | zero =>
        exact absurd (List.isPrefixOf_iff_prefix.mpr (by simpa [occursAt] using hocc)) hpre
      | succ k' =>
        have h1 : occursAt t m k' := by simpa [occursAt] using hocc
        have h2 : ∀ q, q < k' → ¬ occursAt t m q := fun q hq hoc =>
          hmin (q + 1) (Nat.succ_lt_succ hq) (by simpa [occursAt] using hoc)
        rw [strFind, if_neg hpre]
        simp [ih h1 h2]

theorem strFind_le_length : ∀ {l m : List Char} {k : Nat},
    strFind l m = some k → k ≤ l.length := by
  intro l
  induction l with
  | nil =>
    intro m k h
    rw [strFind] at h
    split at h
    · cases h; exact Nat.le_refl 0
    · simp at h
  | cons c t ih =>
    intro m k h
    rw [strFind] at h
    split at h
    · cases h; exact Nat.zero_le _
    · simp only [Option.map_eq_some'] at h
      obtain ⟨k', hk', rfl⟩ := h
      simpa using Nat.succ_le_succ (ih hk')

theorem not_occursAt_of_contains_false {l m : List Char}
    (h : strContains l m = false) : ∀ q, ¬ occursAt l m q := by
  have hn : strFind l m = none := by
    cases hf : strFind l m with
    | none => rfl
    | some k => rw [strContains, hf] at h; simp at h
  exact strFind_none hn

theorem contains_ne_nil {l m : List Char} (h : strContains l m = false) : m ≠ [] := by
  intro hm
  exact not_occursAt_of_contains_false h 0 (by simp [occursAt, hm])

theorem occursAt_append_of_occursAt {l₁ l₂ m : List Char} {q : Nat}
    (h : occursAt l₁ m q) : occursAt (l₁ ++ l₂) m q := by
  rcases le_or_lt q l₁.length with hle | hlt
  · unfold occursAt at h ⊢
    rw [List.drop_append_of_le_length hle]
    exact h.trans (List.prefix_append _ _)
  · have hnil : l₁.drop q = [] := List.drop_eq_nil_of_le (Nat.le_of_lt hlt)
    have hm : m = [] := List.prefix_nil.mp (hnil ▸ h)
    simp [occursAt, hm]

theorem occursAt_append_left {l₁ l₂ m : List Char} {q : Nat}
    (h : occursAt (l₁ ++ l₂) m q) (hle : q + m.length ≤ l₁.length) :
    occursAt l₁ m q := by
  have hq : q ≤ l₁.length := Nat.le_trans (Nat.le_add_right q m.length) hle
  unfold occursAt at h ⊢
  rw [List.drop_append_of_le_length hq] at h
  refine List.prefix_of_prefix_length_le h (List.prefix_append _ _) ?_
  rw [List.length_drop]
  omega

theorem occursAt_append_right {l₁ l₂ m : List Char} {q : Nat}
    (h : occursAt l₂ m q) : occursAt (l₁ ++ l₂) m (l₁.length + q) := by
  unfold occursAt at h ⊢
  rw [← List.drop_drop, List.drop_left]
  exact h

theorem border_of_overlap {t m : List Char} {q1 q2 : Nat}
    (h1 : occursAt t m q1) (h2 : occursAt t m q2)
    (hlt : q1 < q2) (hlt2 : q2 < q1 + m.length) :
    m.drop (q2 - q1) <+: m := by
  obtain ⟨r, hr⟩ := h1
  have hd : t.drop q2 = m.drop (q2 - q1) ++ r := by
    have : t.drop q2 = (t.drop q1).drop (q2 - q1) := by
      rw [List.drop_drop]
      congr 1
      omega
    rw [this, ← hr, List.drop_append_of_le_length (by omega)]
  unfold occursAt at h2
  rw [hd] at h2
  refine List.prefix_of_prefix_length_le (List.prefix_append _ _) h2 ?_
  rw [List.length_drop]
  omega

/-! ### The spliced middle segment -/

/-- The text the splicer writes between the kept prefix and the kept tail:
`'\n' + new_content + '\n        '`. -/
def glue (X : List Char) : List Char :=
  '\n' :: X ++ '\n' :: indent8

theorem glue_append (X B : List Char) :
    glue X ++ B = '\n' :: X ++ '\n' :: indent8 ++ B := by
  simp [glue]

theorem update_of_found {c X s e : List Char} {i j : Nat}
    (hs : strFind c s = some i) (he : strFind c e = some j) :
    update_file_content (some c) X s e
      = (some (c.take (i + s.length) ++ glue X ++ c.drop j), true) := by
  have hcs : strContains c s = true := by rw [strContains, hs]; rfl
  have hce : strContains c e = true := by rw [strContains, he]; rfl
  simp [update_file_content, hcs, hce, hs, he, glue]

/-! ### Claim theorems -/

/-- C1: on a document in which both markers occur and the first occurrence
of the start marker ends (at or) before the first occurrence of the end
marker begins, a successful `update_file_content` writes back exactly: the
text up to and including the first start-marker occurrence, then a
newline, the new content, a newline and the fixed 8-space indentation,
then the text from the first end-marker occurrence to the end — so
everything before the start marker and from the end marker onward,
including both marker strings, is preserved. -/
theorem C1_update_splice_shape (c X s e : List Char) (i j : Nat)
    (hs : strFind c s = some i) (he : strFind c e = some j)
    (_hord : i + s.length ≤ j) :
    update_file_content (some c) X s e
      = (some (c.take (i + s.length) ++ '\n' :: X ++ '\n' :: indent8 ++ c.drop j), true)
    ∧ c.take (i + s.length) = c.take i ++ s
    ∧ e <+: c.drop j := by
  have hocc := (strFind_spec hs).1
  refine ⟨by rw [update_of_found hs he]; simp [glue], ?_, (strFind_spec he).1⟩
  have hts : (c.drop i).take s.length = s := (List.prefix_iff_eq_take.mp hocc).symm
  rw [List.take_add, hts]

theorem C1_update_splice_shape_witness :
    strFind ("A<S>m<E>B".toList) ("<S>".toList) = some 1
    ∧ strFind ("A<S>m<E>B".toList) ("<E>".toList) = some 5
    ∧ 1 + ("<S>".toList).length ≤ 5
    ∧ update_file_content (some ("A<S>m<E>B".toList)) ("X".toList) ("<S>".toList) ("<E>".toList)
        = (some (("A<S>m<E>B".toList).take (1 + ("<S>".toList).length)
            ++ '\n' :: "X".toList ++ '\n' :: indent8 ++ ("A<S>m<E>B".toList).drop 5), true)
    ∧ ("A<S>m<E>B".toList).take (1 + ("<S>".toList).length)
        = ("A<S>m<E>B".toList).take 1 ++ "<S>".toList
    ∧ "<E>".toList <+: ("A<S>m<E>B".toList).drop 5 := by
  have h := C1_update_splice_shape ("A<S>m<E>B".toList) ("X".toList) ("<S>".toList)
    ("<E>".toList) 1 5 (by decide) (by decide) (by decide)
  exact ⟨by decide, by decide, by decide, h.1, h.2.1, h.2.2⟩

/-- C2: `update_file_content` returns `false` and leaves the file
unchanged exactly when the file does not exist or one of the two markers
is absent from its content; whenever both markers are present (in any
relative order) it returns `true` and rewrites the file with the spliced
text. -/
theorem C2_update_failure_iff (X s e : List Char) :
    update_file_content none X s e = (none, false)
    ∧ ∀ c : List Char,
      ((update_file_content (some c) X s e).2 = false
          ↔ (strContains c s = false ∨ strContains c e = false))
      ∧ ((strContains c s = false ∨ strContains c e = false) →
          update_file_content (some c) X s e = (some c, false))
      ∧ (strContains c s = true → strContains c e = true →
          update_file_content (some c) X s e
            = (some (c.take ((strFind c s).getD 0 + s.length)
                ++ '\n' :: X ++ '\n' :: indent8 ++ c.drop ((strFind c e).getD 0)), true)) := by
  refine ⟨rfl, fun c => ?_⟩
  cases hcs : strContains c s <;> cases hce : strContains c e <;>
    simp [update_file_content, hcs, hce]

/-- C6 counterexample: document `"Sz E"`, start marker `"S"`, end marker
`" "` (a single space), generated content `"x"` (which contains neither
marker, and the start marker ends before the end marker begins): running
the update twice changes the file content again, because the end marker
also occurs inside the inserted indentation, so the second run keeps a
shorter prefix of the once-updated text. -/
theorem C6_counterexample :
    strFind ("Sz E".toList) ("S".toList) = some 0
    ∧ strFind ("Sz E".toList) (" ".toList) = some 2
    ∧ 0 + ("S".toList).length ≤ 2
    ∧ strContains ("x".toList) ("S".toList) = false
    ∧ strContains ("x".toList) (" ".toList) = false
    ∧ (update_file_content
        (update_file_content (some ("Sz E".toList)) ("x".toList) ("S".toList) (" ".toList)).1
        ("x".toList) ("S".toList) (" ".toList)).1
      ≠ (update_file_content (some ("Sz E".toList)) ("x".toList) ("S".toList) (" ".toList)).1 := by
  exact ⟨by decide, by decide, by decide, by decide, by decide, by decide⟩

/-- C6 (amended): splicing is deterministic, and it is value-idempotent
for a document in which the first start-marker occurrence ends (at or)
before the first end-marker occurrence begins and a generated content
containing neither marker, under the additional assumptions the
counterexample forces: the end marker must not occur in the kept prefix
followed by the inserted segment, and no nonempty proper suffix of the
end marker may be one of its prefixes. -/
theorem C6_value_idempotent (c X s e : List Char) (i j : Nat)
    (hs : strFind c s = some i) (he : strFind c e = some j)
    (_hord : i + s.length ≤ j)
    (_hXs : strContains X s = false) (_hXe : strContains X e = false)
    (hkeep : strContains (c.take (i + s.length) ++ glue X) e = false)
    (hub : ∀ k, k < e.length → 0 < k → ¬ (e.drop k <+: e)) :
    update_file_content (update_file_content (some c) X s e).1 X s e
      = update_file_content (some c) X s e
    ∧ update_file_content (some c) X s e = update_file_content (some c) X s e := by
  refine ⟨?_, rfl⟩
  obtain ⟨hsocc, hsmin⟩ := strFind_spec hs
  obtain ⟨heocc, hemin⟩ := strFind_spec he
  have henil : e ≠ [] := contains_ne_nil hkeep
  have hilen : i ≤ c.length := strFind_le_length hs
  have hslen : i + s.length ≤ c.length := by
    have h2 : s.length ≤ c.length - i := by
      simpa [List.length_drop] using hsocc.length_le
    omega
  set A := c.take (i + s.length) with hA
  set B := c.drop j with hB
  set Z := glue X ++ B with hZ
  have hAlen : A.length = i + s.length := by
    rw [hA, List.length_take]; omega
  have h1 : update_file_content (some c) X s e = (some (A ++ glue X ++ B), true) :=
    update_of_found hs he
  have hassoc : A ++ glue X ++ B = A ++ Z := by
    rw [hZ, List.append_assoc]
  -- the kept prefix ends with the start marker
  have hAs : A.drop i = s := by
    rw [hA, List.drop_take]
    have hsub : i + s.length - i = s.length := by omega
    rw [hsub]
    exact (List.prefix_iff_eq_take.mp hsocc).symm
  -- first occurrence of the start marker in the updated text is still i
  have hsocc1 : occursAt (A ++ Z) s i :=
    occursAt_append_of_occursAt (by rw [occursAt, hAs])
  have hsmin1 : ∀ q, q < i → ¬ occursAt (A ++ Z) s q := by
    intro q hq habs
    by_cases hcase : q + s.length ≤ A.length
    · have hocA : occursAt A s q := occursAt_append_left habs hcase
      have hocc : occursAt c s q := by
        rw [occursAt] at hocA ⊢
        have hdt : A.drop q = (c.drop q).take (i + s.length - q) := by
          rw [hA, List.drop_take]
        exact (hdt ▸ hocA).trans (List.take_prefix _ _)
      exact hsmin q hq hocc
    · rw [hAlen] at hcase
      omega
  have hfs : strFind (A ++ Z) s = some i := strFind_eq_some hsocc1 hsmin1
  -- first occurrence of the end marker in the updated text is at the kept tail
  have heB : occursAt B e 0 := by
    rw [occursAt, List.drop_zero, hB]
    exact heocc
  have heocc1 : occursAt (A ++ Z) e (A.length + ((glue X).length + 0)) := by
    exact occursAt_append_right (occursAt_append_right heB)
  have heocc1' : occursAt (A ++ Z) e (A.length + (glue X).length) := by
    simpa using heocc1
  have hemin1 : ∀ q, q < A.length + (glue X).length → ¬ occursAt (A ++ Z) e q := by
    intro q hq habs
    by_cases hcase : q + e.length ≤ A.length + (glue X).length
    · have habs' : occursAt ((A ++ glue X) ++ B) e q := by
        rw [List.append_assoc, ← hZ]
        exact habs
      have hocAg : occursAt (A ++ glue X) e q :=
        occursAt_append_left habs' (by rw [List.length_append]; omega)
      exact not_occursAt_of_contains_false hkeep q hocAg
    · have hborder := border_of_overlap habs heocc1' hq (by omega)
      refine hub (A.length + (glue X).length - q) ?_ (by omega) hborder
      omega
  have hfe : strFind (A ++ Z) e = some (A.length + (glue X).length) :=
    strFind_eq_some heocc1' hemin1
  -- the second run reconstructs exactly the same text
  rw [h1]
  rw [hassoc] at h1 ⊢
  rw [update_of_found hfs hfe]
  have htake : (A ++ Z).take (i + s.length) = A := by
    rw [← hAlen, List.take_left]
  have hdrop : (A ++ Z).drop (A.length + (glue X).length) = B := by
    rw [← List.drop_drop, List.drop_left, hZ, List.drop_left]
  rw [htake, hdrop, List.append_assoc, ← hZ]

theorem C6_value_idempotent_witness :
    strFind ("h <S>old<E> t".toList) ("<S>".toList) = some 2
    ∧ strFind ("h <S>old<E> t".toList) ("<E>".toList) = some 8
    ∧ 2 + ("<S>".toList).length ≤ 8
    ∧ strContains ("new".toList) ("<S>".toList) = false
    ∧ strContains ("new".toList) ("<E>".toList) = false
    ∧ strContains (("h <S>old<E> t".toList).take (2 + ("<S>".toList).length)
        ++ glue ("new".toList)) ("<E>".toList) = false
    ∧ (∀ k, k < ("<E>".toList).length → 0 < k → ¬ (("<E>".toList).drop k <+: "<E>".toList))
    ∧ update_file_content
        (update_file_content (some ("h <S>old<E> t".toList)) ("new".toList)
          ("<S>".toList) ("<E>".toList)).1 ("new".toList) ("<S>".toList) ("<E>".toList)
      = update_file_content (some ("h <S>old<E> t".toList)) ("new".toList)
          ("<S>".toList) ("<E>".toList) := by
  refine ⟨by decide, by decide, by decide, by decide, by decide, by decide, by decide, ?_⟩
  exact (C6_value_idempotent ("h <S>old<E> t".toList) ("new".toList) ("<S>".toList)
    ("<E>".toList) 2 8 (by decide) (by decide) (by decide) (by decide) (by decide)
    (by decide) (by decide)).1

theorem C2_update_failure_iff_witness :
    update_file_content (some ("aSbc".toList)) ("X".toList) ("S".toList) ("E".toList)
        = (some ("aSbc".toList), false)
    ∧ (update_file_content (some ("aSbEc".toList)) ("X".toList) ("S".toList) ("E".toList)).2
        = true := by
  refine ⟨((C2_update_failure_iff ("X".toList) ("S".toList) ("E".toList)).2
      ("aSbc".toList)).2.1 (Or.inr (by decide)), ?_⟩
  rw [(((C2_update_failure_iff ("X".toList) ("S".toList) ("E".toList)).2
      ("aSbEc".toList)).2.2 (by decide) (by decide))]

theorem update_fail_right {c X s e : List Char} (h : strContains c e = false) :
    update_file_content (some c) X s e = (some c, false) := by
  cases hcs : strContains c s <;> simp [update_file_content, hcs, h]

theorem update_success_flag {c X s e : List Char}
    (h1 : strContains c s = true) (h2 : strContains c e = true) :
    (update_file_content (some c) X s e).2 = true := by
  simp [update_file_content, h1, h2]

theorem mem_find_collections {entries : List FSEntry}
    {pr : String × List (List Char × List Char)}
    (h : pr ∈ (find_collections (some entries)).2) :
    pr.2 = (collectionKept entries pr.1).map fun en => (webLocator en, altText en) := by
  simp only [find_collections] at h
  obtain ⟨a, -, hfa⟩ := List.mem_filterMap.mp h
  by_cases hf : a.isFile
  · simp [hf] at hfa
  · simp only [hf, if_neg, Bool.false_eq_true, if_false] at hfa
    split at hfa
    · simp at hfa
    · cases hfa
      rfl

/-- C3: the scanner's output sequence, and the grouper's per-collection
sequence, follow the entry order sorted lexicographically by the full
path string, and two successive scans of the same fixed tree produce
identical, identically-ordered results. -/
theorem C3_lexicographic_deterministic (art : Option (List FSEntry))
    (entries : List FSEntry) (sub : String) :
    List.Pairwise (fun p q : List Char => lexLe p q = true)
        ((scanKept art).map fun en => (fullPathStr en).toList)
    ∧ (find_all_images art).2 = (scanKept art).map (fun en => (webLocator en, altText en))
    ∧ List.Pairwise (fun p q : List Char => lexLe p q = true)
        ((collectionKept entries sub).map fun en => (fullPathStr en).toList)
    ∧ (∀ pr, pr ∈ (find_collections (some entries)).2 →
        pr.2 = (collectionKept entries pr.1).map fun en => (webLocator en, altText en))
    ∧ find_all_images art = find_all_images art
    ∧ find_collections art = find_collections art := by
  refine ⟨?_, ?_, ?_, fun pr h => mem_find_collections h, rfl, rfl⟩
  · cases art with
    | none => exact List.Pairwise.nil
    | some l =>
      exact List.pairwise_map.mpr
        (List.Pairwise.filter qualifies (List.sorted_insertionSort entryLe l))
  · cases art <;> rfl
  · exact List.pairwise_map.mpr
      (List.Pairwise.filter qualifies
        (List.sorted_insertionSort entryLe (subTreeEntries entries sub)))

theorem C3_lexicographic_deterministic_witness :
    (("c", [("../art/c/x.png".toList, "X".toList)])
        ∈ (find_collections (some [⟨["c"], false⟩, ⟨["c", "x.png"], true⟩])).2)
    ∧ ("c", [("../art/c/x.png".toList, "X".toList)]).2
        = (collectionKept [⟨["c"], false⟩, ⟨["c", "x.png"], true⟩] "c").map
            fun en => (webLocator en, altText en) := by
  refine ⟨by decide, ?_⟩
  exact (C3_lexicographic_deterministic (some [⟨["c"], false⟩, ⟨["c", "x.png"], true⟩])
    [⟨["c"], false⟩, ⟨["c", "x.png"], true⟩] "c").2.2.2.1
    ("c", [("../art/c/x.png".toList, "X".toList)]) (by decide)

/-- C4: the derived label equals the filename stem with underscores and
hyphens replaced by spaces and title-case word capitalization applied;
`sunset-over_hills.png` yields `"Sunset Over Hills"`, and the scanner and
the grouper both attach exactly this label to every emitted entry. -/
theorem C4_label_derivation (en : FSEntry) (art : Option (List FSEntry))
    (entries : List FSEntry) (sub : String) :
    altText en
      = pyTitle (pyReplaceChar '-' ' ' (pyReplaceChar '_' ' ' (pyStem (entryName en).toList)))
    ∧ (find_all_images art).2.map Prod.snd = (scanKept art).map altText
    ∧ ((collectionKept entries sub).map fun x => (webLocator x, altText x)).map Prod.snd
        = (collectionKept entries sub).map altText
    ∧ altText ⟨["sunset-over_hills.png"], true⟩ = "Sunset Over Hills".toList := by
  refine ⟨rfl, ?_, by simp, by decide⟩
  cases art <;> simp [find_all_images, scanKept]

/-- C5: the locator emitted for every scanned image equals the file's
path made relative to the target documents' directory `pages/`, with all
platform path separators replaced by forward slashes. -/
theorem C5_locator_relative_to_pages (art : Option (List FSEntry))
    (entries : List FSEntry) (sub : String) :
    (∀ en : FSEntry, webLocator en
        = pyReplaceChar osSep '/' (joinedPath (relpathComps (ART_FOLDER :: en.comps) (["pages"]))))
    ∧ (find_all_images art).2.map Prod.fst = (scanKept art).map webLocator
    ∧ ((collectionKept entries sub).map fun x => (webLocator x, altText x)).map Prod.fst
        = (collectionKept entries sub).map webLocator
    ∧ webLocator ⟨["landscapes", "hill_1.jpg"], true⟩ = "../art/landscapes/hill_1.jpg".toList := by
  refine ⟨fun en => rfl, ?_, by simp, by decide⟩
  cases art <;> simp [find_all_images, scanKept]

/-- C7: when one target document exists but lacks its required end
marker, that pipeline's update returns failure and the document's content
stays identical, while the other pipeline's update (given valid markers)
still succeeds; failure in one pipeline never blocks or alters the
other. -/
theorem C7_pipeline_independence (w : World) :
    ((find_all_images w.art).2 ≠ [] → (find_collections w.art).2 ≠ [] →
      ∀ g, w.gallery = some g → strContains g GALLERY_END = false →
      ∀ cdoc, w.collectionsFile = some cdoc →
        strContains cdoc COLLECTIONS_START = true → strContains cdoc COLLECTIONS_END = true →
        (main w).1.gallery = w.gallery ∧ (main w).2.galleryUpdate = some false
          ∧ (main w).2.collectionsUpdate = some true)
    ∧ ((find_all_images w.art).2 ≠ [] → (find_collections w.art).2 ≠ [] →
      ∀ cdoc, w.collectionsFile = some cdoc → strContains cdoc COLLECTIONS_END = false →
      ∀ g, w.gallery = some g →
        strContains g GALLERY_START = true → strContains g GALLERY_END = true →
        (main w).1.collectionsFile = w.collectionsFile
          ∧ (main w).2.collectionsUpdate = some false
          ∧ (main w).2.galleryUpdate = some true) := by
  constructor
  · intro hni hnc g hg hge cdoc hc hcs hce
    have hie1 : (find_all_images w.art).2.isEmpty = false := by
      cases hl : (find_all_images w.art).2 with
      | nil => exact absurd hl hni
      | cons a t => rfl
    have hie2 : (find_collections w.art).2.isEmpty = false := by
      cases hl : (find_collections w.art).2 with
      | nil => exact absurd hl hnc
      | cons a t => rfl
    have h1 : update_file_content (some g)
        (generate_gallery_html (find_all_images w.art).2) GALLERY_START GALLERY_END
        = (some g, false) := update_fail_right hge
    have h2 : (update_file_content (some cdoc)
        (generate_collections_html (find_collections w.art).2)
        COLLECTIONS_START COLLECTIONS_END).2 = true := update_success_flag hcs hce
    refine ⟨?_, ?_, ?_⟩ <;> simp [main, hie1, hie2, hg, hc, h1, h2]
  · intro hni hnc cdoc hc hce g hg hgs hge
    have hie1 : (find_all_images w.art).2.isEmpty = false := by
      cases hl : (find_all_images w.art).2 with
      | nil => exact absurd hl hni
      | cons a t => rfl
    have hie2 : (find_collections w.art).2.isEmpty = false := by
      cases hl : (find_collections w.art).2 with
      | nil => exact absurd hl hnc
      | cons a t => rfl
    have h1 : (update_file_content (some g)
        (generate_gallery_html (find_all_images w.art).2) GALLERY_START GALLERY_END).2
        = true := update_success_flag hgs hge
    have h2 : update_file_content (some cdoc)
        (generate_collections_html (find_collections w.art).2)
        COLLECTIONS_START COLLECTIONS_END = (some cdoc, false) := update_fail_right hce
    refine ⟨?_, ?_, ?_⟩ <;> simp [main, hie1, hie2, hg, hc, h1, h2]

theorem C7_pipeline_independence_witness :
    ((main ⟨some [⟨["c"], false⟩, ⟨["c", "x.png"], true⟩],
        some ("<!-- GALLERY_IMAGES_START --> broken".toList),
        some ("<!-- COLLECTIONS_START --><!-- COLLECTIONS_END -->".toList)⟩).1.gallery
      = some ("<!-- GALLERY_IMAGES_START --> broken".toList)
    ∧ (main ⟨some [⟨["c"], false⟩, ⟨["c", "x.png"], true⟩],
        some ("<!-- GALLERY_IMAGES_START --> broken".toList),
        some ("<!-- COLLECTIONS_START --><!-- COLLECTIONS_END -->".toList)⟩).2.galleryUpdate
      = some false
    ∧ (main ⟨some [⟨["c"], false⟩, ⟨["c", "x.png"], true⟩],
        some ("<!-- GALLERY_IMAGES_START --> broken".toList),
        some ("<!-- COLLECTIONS_START --><!-- COLLECTIONS_END -->".toList)⟩).2.collectionsUpdate
      = some true)
    ∧ ((main ⟨some [⟨["c"], false⟩, ⟨["c", "x.png"], true⟩],
        some ("<!-- GALLERY_IMAGES_START --><!-- GALLERY_IMAGES_END -->".toList),
        some ("<!-- COLLECTIONS_START --> broken".toList)⟩).1.collectionsFile
      = some ("<!-- COLLECTIONS_START --> broken".toList)
    ∧ (main ⟨some [⟨["c"], false⟩, ⟨["c", "x.png"], true⟩],
        some ("<!-- GALLERY_IMAGES_START --><!-- GALLERY_IMAGES_END -->".toList),
        some ("<!-- COLLECTIONS_START --> broken".toList)⟩).2.collectionsUpdate
      = some false
    ∧ (main ⟨some [⟨["c"], false⟩, ⟨["c", "x.png"], true⟩],
        some ("<!-- GALLERY_IMAGES_START --><!-- GALLERY_IMAGES_END -->".toList),
        some ("<!-- COLLECTIONS_START --> broken".toList)⟩).2.galleryUpdate
      = some true) := by
  constructor
  · exact (C7_pipeline_independence ⟨some [⟨["c"], false⟩, ⟨["c", "x.png"], true⟩],
      some ("<!-- GALLERY_IMAGES_START --> broken".toList),
      some ("<!-- COLLECTIONS_START --><!-- COLLECTIONS_END -->".toList)⟩).1
      (by decide) (by decide) ("<!-- GALLERY_IMAGES_START --> broken".toList) rfl
      (by decide) ("<!-- COLLECTIONS_START --><!-- COLLECTIONS_END -->".toList) rfl
      (by decide) (by decide)
  · exact (C7_pipeline_independence ⟨some [⟨["c"], false⟩, ⟨["c", "x.png"], true⟩],
      some ("<!-- GALLERY_IMAGES_START --><!-- GALLERY_IMAGES_END -->".toList),
      some ("<!-- COLLECTIONS_START --> broken".toList)⟩).2
      (by decide) (by decide) ("<!-- COLLECTIONS_START --> broken".toList) rfl
      (by decide) ("<!-- GALLERY_IMAGES_START --><!-- GALLERY_IMAGES_END -->".toList) rfl
      (by decide) (by decide)

set_option maxRecDepth 40000 in
/-- C8: each emitted collection section embeds the raw collection name as
the machine-readable identifier on the section, on both navigation
controls and in the composite carousel identifier, while the visible
heading is the separator-normalized, title-cased display name;
`my_collection-1` gets heading `"My Collection 1"` with the data
attributes still reading `my_collection-1`. -/
theorem C8_raw_identifier_and_display_heading (name : List Char)
    (images : List (List Char × List Char))
    (collections : List (String × List (List Char × List Char))) :
    collectionSection name images
      = "        <!-- Collection: ".toList ++ name
        ++ " -->\n        <section class=\"collection-section\" data-collection=\"".toList
        ++ name
        ++ "\">\n            <div class=\"collection-header\">\n                <h2>".toList
        ++ displayName name
        ++ "</h2>\n            </div>\n            <div class=\"collection-carousel-container\">\n                <button class=\"carousel-btn prev\" data-carousel=\"".toList
        ++ name
        ++ "\">‚Äπ</button>\n                <div class=\"collection-carousel\" id=\"carousel-".toList
        ++ name
        ++ "\">\n                    <div class=\"carousel-track\">\n".toList
        ++ joinNl (images.map fun pr => collectionCard pr.1 pr.2)
        ++ "\n                    </div>\n                </div>\n                <button class=\"carousel-btn next\" data-carousel=\"".toList
        ++ name
        ++ "\">‚Ä∫</button>\n            </div>\n        </section>".toList
    ∧ generate_collections_html collections
        = joinNl ((collections.filter fun pr => !pr.2.isEmpty).map fun pr =>
            collectionSection pr.1.toList pr.2)
    ∧ displayName ("my_collection-1".toList) = "My Collection 1".toList
    ∧ strContains (collectionSection ("my_collection-1".toList) [("p".toList, "a".toList)])
        ("data-collection=\"my_collection-1\"".toList) = true
    ∧ strContains (collectionSection ("my_collection-1".toList) [("p".toList, "a".toList)])
        ("<h2>My Collection 1</h2>".toList) = true := by
  exact ⟨rfl, rfl, by decide, by decide, by decide⟩

/-- C9: when the root art directory does not exist, the scanner and the
grouper each emit a diagnostic and return an empty result, and the
overall process still completes both pipelines, treating zero images as a
valid non-fatal outcome (no update is attempted, no document changes). -/
theorem C9_missing_root_nonfatal (gf cf : Option (List Char)) :
    (find_all_images none).1 = ["Error: Art folder does not exist!"]
    ∧ (find_all_images none).2 = []
    ∧ (find_collections none).1 = ["Error: Art folder does not exist!"]
    ∧ (find_collections none).2 = []
    ∧ main ⟨none, gf, cf⟩ = (⟨none, gf, cf⟩, ⟨none, none⟩) := by
  exact ⟨rfl, rfl, rfl, rfl, rfl⟩

/-- C10: when a scan yields zero images (respectively zero collections),
`main` never invokes the splicer for that target: the corresponding
document keeps its previous content, so markup generated by a previous
run is not cleared. -/
theorem C10_no_update_on_empty_scan (w : World) :
    ((find_all_images w.art).2 = [] →
      (main w).1.gallery = w.gallery ∧ (main w).2.galleryUpdate = none)
    ∧ ((find_collections w.art).2 = [] →
      (main w).1.collectionsFile = w.collectionsFile
        ∧ (main w).2.collectionsUpdate = none) := by
  constructor
  · intro h
    have hie : (find_all_images w.art).2.isEmpty = true := by rw [h]; rfl
    constructor <;> simp [main, hie]
  · intro h
    have hie : (find_collections w.art).2.isEmpty = true := by rw [h]; rfl
    constructor <;> simp [main, hie]

theorem C10_no_update_on_empty_scan_witness :
    (main ⟨some [], some ("keep me".toList), some ("and me".toList)⟩).1.gallery
        = some ("keep me".toList)
    ∧ (main ⟨some [], some ("keep me".toList), some ("and me".toList)⟩).2.galleryUpdate = none
    ∧ (main ⟨some [], some ("keep me".toList), some ("and me".toList)⟩).1.collectionsFile
        = some ("and me".toList)
    ∧ (main ⟨some [], some ("keep me".toList), some ("and me".toList)⟩).2.collectionsUpdate
        = none := by
  obtain ⟨h1, h2⟩ := (C10_no_update_on_empty_scan
    ⟨some [], some ("keep me".toList), some ("and me".toList)⟩).1 (by decide)
  obtain ⟨h3, h4⟩ := (C10_no_update_on_empty_scan
    ⟨some [], some ("keep me".toList), some ("and me".toList)⟩).2 (by decide)
  exact ⟨h1, h2, h3, h4⟩

end Portfolio
